import Mathlib

/-!
# SteadyCheck: the steady-state calculator of `script.js`

A shallow embedding of the pure part of `SteadyStateCalculator`
(`validateInput`, `convertToHours`, `formatTime`, `getHalfLivesForSteadyState`,
`getClinicalInfo`, `calculateSteadyState`).

Number model.  A finite JavaScript number is represented by the rational it denotes; `NaN`
and the two infinities are separate constructors of `JSNumber`.  Comparisons, `Math.round`,
`Math.floor` and the remainder operator are exact on doubles and are modelled exactly.

Products and quotients are given twice.  In the namespace `F64` each of them is rounded to
the nearest IEEE-754 double, as the program computes it, and numbers are printed by the
shortest-digits rule of `Number::toString`.  The definitions outside `F64` keep products and
quotients exact: they are the exact-arithmetic reading of the same code, in which the
properties that are stated for exact arithmetic, or that do not depend on rounding, are
expressed.
-/

namespace SteadyCheck

/-- A JavaScript number as returned by `parseFloat`: a finite value, `NaN`, or an infinity.
The two zeros are identified (the source never distinguishes them). -/
inductive JSNumber where
  | finite (q : ℚ)
  | nan
  | posInf
  | negInf
deriving DecidableEq

namespace JSNumber

/-- JavaScript `!x` on a number: true exactly for the falsy numbers `0` and `NaN`. -/
def not : JSNumber → Bool
  | finite q => decide (q = 0)
  | nan => true
  | posInf => false
  | negInf => false

/-- JavaScript `x <= c` for a finite constant `c`. -/
def le (x : JSNumber) (c : ℚ) : Bool :=
  match x with
  | finite q => decide (q ≤ c)
  | nan => false
  | posInf => false
  | negInf => true

/-- JavaScript `x > c` for a finite constant `c`. -/
def gt (x : JSNumber) (c : ℚ) : Bool :=
  match x with
  | finite q => decide (c < q)
  | nan => false
  | posInf => true
  | negInf => false

end JSNumber

/-- `Math.round`: the nearest integer, ties going up. -/
def Math_round (x : ℚ) : ℤ := ⌊x + 1 / 2⌋

/-- `Math.floor`. -/
def Math_floor (x : ℚ) : ℤ := ⌊x⌋

/-- The JavaScript remainder `a % b` (`b ≠ 0`): `a - b * trunc (a / b)`, with the sign of `a`. -/
def jsRem (a b : ℚ) : ℚ :=
  a - b * (if 0 ≤ a / b then ⌊a / b⌋ else ⌈a / b⌉)

/-- Decimal digits of a fraction `0 ≤ r < 1`, at most `fuel` of them, stopping when the
expansion ends. -/
def fracDigits : Nat → ℚ → List Char
  | 0, _ => []
  | fuel + 1, r =>
    if r = 0 then []
    else
      let d : ℤ := ⌊r * 10⌋
      Char.ofNat (48 + d.toNat) :: fracDigits fuel (r * 10 - d)

/-- Number-to-string conversion as used by template literals, in the exact reading: an
optional sign, the integer part, and the fractional digits when there are any.  It agrees
with JavaScript on integers below `10 ^ 21` in absolute value and on tenths of such
integers; `F64.numberToString` is the conversion for every double. -/
def numberToString (q : ℚ) : String :=
  let a : ℚ := |q|
  let ip : ℤ := ⌊a⌋
  (if q < 0 then "-" else "") ++ toString ip.toNat ++
    (if a - ip = 0 then "" else "." ++ String.mk (fracDigits 17 (a - ip)))

/-! ## The calculator -/

/-- The outcome of `validateInput`: the boolean it returns and the message it hands to
`showError`, if any. -/
structure Validation where
  ok : Bool
  error : Option String
deriving DecidableEq

/-- `validateInput`, on the number `parseFloat` produced from the half-life field. -/
def validateInput (halfLife : JSNumber) : Validation :=
  if halfLife.not || halfLife.le 0 then
    ⟨false, some "Please enter a valid half-life value greater than 0"⟩
  else if halfLife.gt 1000 then
    ⟨false, some "Half-life value seems unusually high. Please verify."⟩
  else
    ⟨true, none⟩

/-- `convertToHours`: a `switch` on the unit string with a pass-through default. -/
def convertToHours (value : ℚ) (unit : String) : ℚ :=
  if unit = "minutes" then value / 60
  else if unit = "hours" then value
  else if unit = "days" then value * 24
  else value

/-- The local constant `days` of `formatTime`. -/
def formatTime.days (hours : ℚ) : ℚ := (Math_round (hours / 24 * 10) : ℚ) / 10

/-- The local constant `remainingHours` of `formatTime`. -/
def formatTime.remainingHours (hours : ℚ) : ℤ := Math_round (jsRem hours 24)

/-- `formatTime`. -/
def formatTime (hours : ℚ) : String :=
  if hours < 1 then
    let minutes : ℤ := Math_round (hours * 60)
    numberToString minutes ++ " minute" ++ (if minutes ≠ 1 then "s" else "")
  else if hours < 24 then
    let roundedHours : ℚ := (Math_round (hours * 10) : ℚ) / 10
    numberToString roundedHours ++ " hour" ++ (if roundedHours ≠ 1 then "s" else "")
  else
    let days : ℚ := formatTime.days hours
    let remainingHours : ℤ := formatTime.remainingHours hours
    if remainingHours = 0 then
      numberToString days ++ " day" ++ (if days ≠ 1 then "s" else "")
    else
      numberToString (Math_floor days) ++ " day" ++ (if Math_floor days ≠ 1 then "s" else "")
        ++ " " ++ numberToString remainingHours ++ " hour"
        ++ (if remainingHours ≠ 1 then "s" else "")

/-- The object literal `multipliers` of `getHalfLivesForSteadyState`. -/
def multipliers : List (ℤ × ℚ) := [(90, 33 / 10), (95, 43 / 10), (97, 5), (99, 66 / 10)]

/-- `getHalfLivesForSteadyState`: `multipliers[percentage] || 5.0`, for an integer
percentage (the result of `parseInt`).  A missing key, like a falsy entry, gives `5.0`. -/
def getHalfLivesForSteadyState (percentage : ℤ) : ℚ :=
  match multipliers.lookup percentage with
  | some m => if m = 0 then 5 else m
  | none => 5

/-- `getClinicalInfo`. -/
def getClinicalInfo (drugName : String) (steadyStateHours : ℚ) (percentage : ℤ) : String :=
  let info₀ : String :=
    "At " ++ numberToString percentage
      ++ "% steady state, the drug concentration will be relatively stable. "
  let info₁ : String :=
    if steadyStateHours < 24 then
      info₀ ++ "Steady state will be reached within the first day of therapy. "
    else if steadyStateHours < 72 then
      info₀ ++ "Steady state will be reached within 2-3 days of therapy. "
    else if steadyStateHours < 168 then
      info₀ ++ "Steady state will be reached within the first week of therapy. "
    else
      info₀ ++ "Steady state will take more than a week to achieve. Consider loading dose if appropriate. "
  let info₂ : String :=
    info₁ ++ "This is the optimal time for therapeutic drug monitoring and dosage adjustments."
  if drugName ≠ "" then "For " ++ drugName ++ ": " ++ info₂ else info₂

/-- The characters `String.prototype.trim` removes: ECMAScript white space and line
terminators. -/
def isTrimmable (c : Char) : Bool :=
  decide (c.toNat ∈ [0x09, 0x0A, 0x0B, 0x0C, 0x0D, 0x20, 0xA0, 0x1680, 0x2028, 0x2029,
    0x202F, 0x205F, 0x3000, 0xFEFF]) || (decide (0x2000 ≤ c.toNat) && decide (c.toNat ≤ 0x200A))

/-- `String.prototype.trim`. -/
def jsTrim (s : String) : String :=
  String.mk ((s.data.dropWhile isTrimmable).reverse.dropWhile isTrimmable).reverse

/-- What `calculateSteadyState` reads from the page: the raw drug-name field, the half-life
as parsed by `parseFloat`, the selected unit, and the level as parsed by `parseInt`. -/
structure Form where
  drugName : String
  halfLife : JSNumber
  timeUnit : String
  steadyStateLevel : ℤ

/-- What `calculateSteadyState` writes to the page, together with the value of its local
constant `steadyStateHours`. -/
structure Results where
  steadyStateHours : ℚ
  steadyStateTime : String
  halfLivesCount : String
  steadyStatePercent : String
  clinicalInfo : String
deriving DecidableEq

/-- A run of `calculateSteadyState` ends with an error message shown or with results shown. -/
inductive Outcome where
  | error (message : String)
  | results (r : Results)
deriving DecidableEq

/-- `calculateSteadyState`: validation first, then the calculation on the same parsed
half-life.  A half-life that passed validation is finite, so the last branch of the match
is never taken. -/
def calculateSteadyState (form : Form) : Outcome :=
  let v := validateInput form.halfLife
  if !v.ok then .error (v.error.getD "")
  else
    match form.halfLife with
    | .finite halfLifeValue =>
      let drugName := jsTrim form.drugName
      let halfLifeHours := convertToHours halfLifeValue form.timeUnit
      let halfLivesMultiplier := getHalfLivesForSteadyState form.steadyStateLevel
      let steadyStateHours := halfLifeHours * halfLivesMultiplier
      .results
        { steadyStateHours := steadyStateHours
          steadyStateTime := formatTime steadyStateHours
          halfLivesCount := numberToString halfLivesMultiplier ++ " half-lives"
          steadyStatePercent := numberToString form.steadyStateLevel ++ "%"
          clinicalInfo := getClinicalInfo drugName steadyStateHours form.steadyStateLevel }
    | _ => .error (v.error.getD "")

/-! ## Double-precision arithmetic

The calculator's numbers are IEEE-754 binary64 values.  A finite double is represented by
the rational it denotes; an arithmetic operation is the exact operation followed by
`F64.toDouble`, rounding to the nearest double with ties to the even significand.  Overflow
to an infinity is not modelled: no operation of the calculator can overflow on a half-life
that passed validation, nor inside `formatTime` on a finite argument. -/

namespace F64

/-- The power `2 ^ e` for an integer exponent. -/
def pow2 (e : ℤ) : ℚ :=
  if 0 ≤ e then ((2 ^ e.toNat : ℕ) : ℚ) else 1 / ((2 ^ (-e).toNat : ℕ) : ℚ)

/-- The power `10 ^ e` for an integer exponent. -/
def pow10 (e : ℤ) : ℚ :=
  if 0 ≤ e then ((10 ^ e.toNat : ℕ) : ℚ) else 1 / ((10 ^ (-e).toNat : ℕ) : ℚ)

/-- Rounding of a non-negative rational to the nearest integer, ties to the even one. -/
def roundHalfEven (x : ℚ) : ℤ :=
  let f : ℤ := ⌊x⌋
  let r : ℚ := x - f
  if r < 1 / 2 then f
  else if 1 / 2 < r then f + 1
  else if f % 2 = 0 then f else f + 1

/-- For `a > 0`: the integer `e` with `2 ^ e ≤ a < 2 ^ (e + 1)`. -/
def binaryExponent (a : ℚ) : ℤ :=
  let e₀ : ℤ :=
    ((Nat.toDigits 2 a.num.natAbs).length : ℤ) - ((Nat.toDigits 2 a.den).length : ℤ)
  if a < pow2 e₀ then e₀ - 1 else e₀

/-- For `a > 0`: the exponent of the spacing of the doubles around `a`, 52 binary places
below the leading bit and never below the subnormal spacing `2 ^ (-1074)`. -/
def ulpExponent (a : ℚ) : ℤ := max (binaryExponent a - 52) (-1074)

/-- The double nearest to a rational, ties to even. -/
def toDouble (q : ℚ) : ℚ :=
  if q = 0 then 0
  else
    let a : ℚ := |q|
    let u : ℚ := pow2 (ulpExponent a)
    let m : ℤ := roundHalfEven (a / u)
    if q < 0 then -(m * u) else m * u

/-- JavaScript `a * b` on finite doubles. -/
def mul (a b : ℚ) : ℚ := toDouble (a * b)

/-- JavaScript `a / b` on finite doubles, `b ≠ 0`. -/
def div (a b : ℚ) : ℚ := toDouble (a / b)

/-- For `a > 0`: the integer `n` with `10 ^ (n - 1) ≤ a < 10 ^ n`. -/
def decimalExponent (a : ℚ) : ℤ :=
  let n₀ : ℤ :=
    ((Nat.toDigits 10 a.num.natAbs).length : ℤ) - ((Nat.toDigits 10 a.den).length : ℤ)
  if a < pow10 n₀ then n₀ else n₀ + 1

/-- For a double `x > 0` with decimal exponent `n`: the decimal number with the fewest
significant digits (`k`, tried upwards) that rounds to `x`, the closest to `x` among those
with `k` digits. -/
def shortestDecimal (x : ℚ) (n : ℤ) : Nat → Nat → ℚ
  | 0, _ => x
  | fuel + 1, k =>
    let scale : ℚ := pow10 (n - k)
    let lo : ℚ := (⌊x / scale⌋ : ℚ) * scale
    let hi : ℚ := ((⌊x / scale⌋ + 1 : ℤ) : ℚ) * scale
    let okLo : Bool := decide (toDouble lo = x)
    let okHi : Bool := decide (toDouble hi = x)
    if okLo && okHi then
      (if x - lo < hi - x then lo
       else if hi - x < x - lo then hi
       else if ⌊x / scale⌋ % 2 = 0 then lo else hi)
    else if okLo then lo
    else if okHi then hi
    else shortestDecimal x n fuel (k + 1)

/-- The decimal digits of `r`, `0 ≤ r < 1`, until the expansion ends (at most `fuel`). -/
def digitsOf : Nat → ℚ → List Char
  | 0, _ => []
  | fuel + 1, r =>
    if r = 0 then []
    else
      let d : ℤ := ⌊r * 10⌋
      Nat.digitChar d.toNat :: digitsOf fuel (r * 10 - d)

/-- `Number::toString` on a positive double. -/
def positiveToString (x : ℚ) : String :=
  let v : ℚ := shortestDecimal x (decimalExponent x) 17 1
  let n : ℤ := decimalExponent v
  let ds : List Char := digitsOf 17 (v / pow10 n)
  let k : ℤ := ds.length
  if k ≤ n ∧ n ≤ 21 then
    String.mk (ds ++ List.replicate (n - k).toNat '0')
  else if 0 < n ∧ n ≤ 21 then
    String.mk (ds.take n.toNat ++ '.' :: ds.drop n.toNat)
  else if -6 < n ∧ n ≤ 0 then
    String.mk ('0' :: '.' :: (List.replicate (-n).toNat '0' ++ ds))
  else
    let e : ℤ := n - 1
    let exponent : String := (if 0 ≤ e then "e+" else "e-") ++ toString e.natAbs
    if k = 1 then String.mk ds ++ exponent
    else String.mk (ds.take 1 ++ '.' :: ds.drop 1) ++ exponent

/-- `Number::toString` on a finite double, as used by template literals. -/
def numberToString (x : ℚ) : String :=
  if x = 0 then "0"
  else if x < 0 then "-" ++ positiveToString (-x)
  else positiveToString x


/-- Template-literal rendering of a number that may be `NaN` or infinite. -/
def jsNumberToString : JSNumber → String
  | .finite q => numberToString q
  | .nan => "NaN"
  | .posInf => "Infinity"
  | .negInf => "-Infinity"

/-- `convertToHours` in double arithmetic. -/
def convertToHours (value : ℚ) (unit : String) : ℚ :=
  if unit = "minutes" then div value 60
  else if unit = "hours" then value
  else if unit = "days" then mul value 24
  else value

/-- The local constant `days` of `formatTime`: `Math.round(hours / 24 * 10) / 10`. -/
def formatTime.days (hours : ℚ) : ℚ := div (Math_round (mul (div hours 24) 10)) 10

/-- The local constant `remainingHours` of `formatTime`: `Math.round(hours % 24)`; the
remainder of two doubles is exact. -/
def formatTime.remainingHours (hours : ℚ) : ℤ := Math_round (jsRem hours 24)

/-- `formatTime` in double arithmetic. -/
def formatTime (hours : ℚ) : String :=
  if hours < 1 then
    let minutes : ℤ := Math_round (mul hours 60)
    numberToString minutes ++ " minute" ++ (if minutes ≠ 1 then "s" else "")
  else if hours < 24 then
    let roundedHours : ℚ := div (Math_round (mul hours 10)) 10
    numberToString roundedHours ++ " hour" ++ (if roundedHours ≠ 1 then "s" else "")
  else
    let days : ℚ := formatTime.days hours
    let remainingHours : ℤ := formatTime.remainingHours hours
    if remainingHours = 0 then
      numberToString days ++ " day" ++ (if days ≠ 1 then "s" else "")
    else
      numberToString (Math_floor days) ++ " day" ++ (if Math_floor days ≠ 1 then "s" else "")
        ++ " " ++ numberToString remainingHours ++ " hour"
        ++ (if remainingHours ≠ 1 then "s" else "")

/-- The object literal `multipliers`, its values the doubles written `3.3`, `4.3`, `5.0`
and `6.6`. -/
def multipliers : List (ℚ × ℚ) :=
  [(90, toDouble (33 / 10)), (95, toDouble (43 / 10)), (97, 5), (99, toDouble (66 / 10))]

/-- `getHalfLivesForSteadyState`: `multipliers[percentage] || 5.0`.  The property key is
the printed form of the number, which is "90", "95", "97" or "99" exactly for these four
values; `NaN` (a failed `parseInt`) and the infinities name no property. -/
def getHalfLivesForSteadyState (percentage : JSNumber) : ℚ :=
  match percentage with
  | .finite p =>
    match multipliers.lookup p with
    | some m => if m = 0 then 5 else m
    | none => 5
  | _ => 5

/-- `getClinicalInfo`, with the percentage as the number `parseInt` returned. -/
def getClinicalInfo (drugName : String) (steadyStateHours : ℚ) (percentage : JSNumber) :
    String :=
  let info₀ : String :=
    "At " ++ jsNumberToString percentage
      ++ "% steady state, the drug concentration will be relatively stable. "
  let info₁ : String :=
    if steadyStateHours < 24 then
      info₀ ++ "Steady state will be reached within the first day of therapy. "
    else if steadyStateHours < 72 then
      info₀ ++ "Steady state will be reached within 2-3 days of therapy. "
    else if steadyStateHours < 168 then
      info₀ ++ "Steady state will be reached within the first week of therapy. "
    else
      info₀ ++ "Steady state will take more than a week to achieve. Consider loading dose if appropriate. "
  let info₂ : String :=
    info₁ ++ "This is the optimal time for therapeutic drug monitoring and dosage adjustments."
  if drugName ≠ "" then "For " ++ drugName ++ ": " ++ info₂ else info₂

/-- What `calculateSteadyState` reads from the page: the raw drug-name field, the half-life
as parsed by `parseFloat`, the selected unit, and the level as parsed by `parseInt` (an
integer-valued double or `NaN`). -/
structure Form where
  drugName : String
  halfLife : JSNumber
  timeUnit : String
  steadyStateLevel : JSNumber

/-- `calculateSteadyState` in double arithmetic: validation first, then the calculation on
the same parsed half-life.  A half-life that passed validation is finite, so the last
branch of the match is never taken. -/
def calculateSteadyState (form : Form) : Outcome :=
  let v := validateInput form.halfLife
  if !v.ok then .error (v.error.getD "")
  else
    match form.halfLife with
    | .finite halfLifeValue =>
      let drugName := jsTrim form.drugName
      let halfLifeHours := convertToHours halfLifeValue form.timeUnit
      let halfLivesMultiplier := getHalfLivesForSteadyState form.steadyStateLevel
      let steadyStateHours := mul halfLifeHours halfLivesMultiplier
      .results
        { steadyStateHours := steadyStateHours
          steadyStateTime := formatTime steadyStateHours
          halfLivesCount := numberToString halfLivesMultiplier ++ " half-lives"
          steadyStatePercent := jsNumberToString form.steadyStateLevel ++ "%"
          clinicalInfo := getClinicalInfo drugName steadyStateHours form.steadyStateLevel }
    | _ => .error (v.error.getD "")

/-- The specification's pluralisation rule: the quantity, the unit word, and an "s" unless
the quantity equals exactly 1. -/
def withUnit (quantity : ℚ) (word : String) : String :=
  numberToString quantity ++ " " ++ word ++ (if quantity = 1 then "" else "s")

/-- The specification's `formatDuration`, written from its piecewise rule.  Products and
quotients are those of the host's double arithmetic, `round` is rounding to the nearest
integer with halves going up, and `hours mod 24` is the remainder of flooring division. -/
def formatDuration_spec (hours : ℚ) : String :=
  if hours < 1 then withUnit (round (mul hours 60)) "minute"
  else if hours < 24 then withUnit (div (round (mul hours 10)) 10) "hour"
  else
    let days : ℚ := div (round (mul (div hours 24) 10)) 10
    let rem : ℤ := round (hours - 24 * ⌊hours / 24⌋)
    if rem = 0 then withUnit days "day"
    else withUnit ⌊days⌋ "day" ++ " " ++ withUnit rem "hour"

end F64

/-! ## Vocabulary of the specification -/

/-- A positive finite number. -/
def JSNumber.IsPositiveFinite (v : JSNumber) : Prop := ∃ q : ℚ, v = .finite q ∧ 0 < q

/-- The message of the `InvalidValue` failure. -/
def invalidValueMessage : String := "Please enter a valid half-life value greater than 0"

/-- The message of the `UnusuallyHigh` failure. -/
def unusuallyHighMessage : String := "Half-life value seems unusually high. Please verify."

/-- The fixed opening sentence of the clinical summary. -/
def summaryOpening (percentage : ℤ) : String :=
  "At " ++ numberToString percentage
    ++ "% steady state, the drug concentration will be relatively stable. "

/-- The fixed closing sentence of the clinical summary. -/
def summaryClosing : String :=
  "This is the optimal time for therapeutic drug monitoring and dosage adjustments."

/-- The specification's time-bucket clause, chosen by the steady-state time in hours. -/
def timeBucketClause (steadyStateHours : ℚ) : String :=
  if steadyStateHours < 24 then
    "Steady state will be reached within the first day of therapy. "
  else if steadyStateHours < 72 then
    "Steady state will be reached within 2-3 days of therapy. "
  else if steadyStateHours < 168 then
    "Steady state will be reached within the first week of therapy. "
  else
    "Steady state will take more than a week to achieve. Consider loading dose if appropriate. "

/-- The text contains the phrase as a contiguous run of characters. -/
def Contains (text phrase : String) : Prop := phrase.data <:+: text.data

instance Contains.decidable (text phrase : String) : Decidable (Contains text phrase) :=
  inferInstanceAs (Decidable (phrase.data <:+: text.data))

/-- The first-day clause text. -/
def firstDayClause : String := "within the first day of therapy"

/-- The 2-3-days clause text. -/
def twoThreeDaysClause : String := "within 2-3 days of therapy"

/-- The first-week clause text. -/
def firstWeekClause : String := "within the first week of therapy"

/-- The more-than-a-week clause text. -/
def moreThanAWeekClause : String :=
  "more than a week to achieve. Consider loading dose if appropriate."

/-- The part of the unlabelled summary that follows the printed percentage. -/
def summaryTail (steadyStateHours : ℚ) : String :=
  "% steady state, the drug concentration will be relatively stable. " ++
    (timeBucketClause steadyStateHours ++ summaryClosing)

/-! ## Properties -/

/-- On a finite number `validateInput` is a three-way case split on the value. -/
theorem validateInput_finite (q : ℚ) :
    validateInput (.finite q) =
      if q ≤ 0 then ⟨false, some invalidValueMessage⟩
      else if 1000 < q then ⟨false, some unusuallyHighMessage⟩
      else ⟨true, none⟩ := by
  unfold validateInput JSNumber.not JSNumber.le JSNumber.gt invalidValueMessage
    unusuallyHighMessage
  by_cases h0 : q ≤ 0
  · simp [h0]
  · have hne : q ≠ 0 := fun h => h0 (le_of_eq h)
    by_cases h1 : 1000 < q <;> simp [h0, hne, h1]

/-- The two error messages are different strings. -/
theorem messages_ne : invalidValueMessage ≠ unusuallyHighMessage := by decide

/-- The inputs `validateInput` accepts are the finite numbers in `(0, 1000]`. -/
theorem validateInput_ok_iff (v : JSNumber) :
    (validateInput v).ok = true ↔ ∃ q : ℚ, v = .finite q ∧ 0 < q ∧ q ≤ 1000 := by
  cases v with
  | finite q =>
    rw [validateInput_finite]
    by_cases h0 : q ≤ 0
    · have : ¬ 0 < q := by linarith
      simp [h0, this]
    · have h0' : 0 < q := lt_of_not_le h0
      by_cases h1 : 1000 < q
      · have : ¬ q ≤ 1000 := by linarith
        simp [h0, h1, this]
      · have : q ≤ 1000 := le_of_not_lt h1
        simp [h0, h1, this, h0']
  | nan => simp [validateInput, JSNumber.not]
  | posInf => simp [validateInput, JSNumber.not, JSNumber.le, JSNumber.gt]
  | negInf => simp [validateInput, JSNumber.not, JSNumber.le]

/-- On an accepted half-life `calculateSteadyState` shows results, computed from the
product of the converted half-life and the multiplier. -/
theorem calculateSteadyState_accepted (form : Form) (q : ℚ) (hq : form.halfLife = .finite q)
    (h0 : 0 < q) (h1 : q ≤ 1000) :
    calculateSteadyState form = .results
      { steadyStateHours :=
          convertToHours q form.timeUnit * getHalfLivesForSteadyState form.steadyStateLevel
        steadyStateTime := formatTime
          (convertToHours q form.timeUnit * getHalfLivesForSteadyState form.steadyStateLevel)
        halfLivesCount :=
          numberToString (getHalfLivesForSteadyState form.steadyStateLevel) ++ " half-lives"
        steadyStatePercent := numberToString form.steadyStateLevel ++ "%"
        clinicalInfo := getClinicalInfo (jsTrim form.drugName)
          (convertToHours q form.timeUnit * getHalfLivesForSteadyState form.steadyStateLevel)
          form.steadyStateLevel } := by
  have hok : (validateInput form.halfLife).ok = true :=
    (validateInput_ok_iff _).mpr ⟨q, hq, h0, h1⟩
  unfold calculateSteadyState
  simp only [hok, Bool.not_true, Bool.false_eq_true, if_false]
  rw [hq]

/-- C2: `getHalfLivesForSteadyState` returns 3.3 for 90, 4.3 for 95, 5.0 for 97, 6.6 for 99,
and 5.0 for every other integer percentage. -/
theorem getHalfLivesForSteadyState_table :
    getHalfLivesForSteadyState 90 = 33 / 10 ∧ getHalfLivesForSteadyState 95 = 43 / 10 ∧
    getHalfLivesForSteadyState 97 = 5 ∧ getHalfLivesForSteadyState 99 = 66 / 10 ∧
    ∀ p : ℤ, p ≠ 90 → p ≠ 95 → p ≠ 97 → p ≠ 99 → getHalfLivesForSteadyState p = 5 := by
  refine ⟨by decide!, by decide!, by decide!, by decide!, ?_⟩
  intro p h1 h2 h3 h4
  have e1 : (p == 90) = false := beq_eq_false_iff_ne.mpr h1
  have e2 : (p == 95) = false := beq_eq_false_iff_ne.mpr h2
  have e3 : (p == 97) = false := beq_eq_false_iff_ne.mpr h3
  have e4 : (p == 99) = false := beq_eq_false_iff_ne.mpr h4
  simp [getHalfLivesForSteadyState, multipliers, List.lookup, e1, e2, e3, e4]

/-- Witness for C2: the percentages 0, -7 and 150 are outside the table and give 5.0. -/
theorem getHalfLivesForSteadyState_table_witness :
    getHalfLivesForSteadyState 0 = 5 ∧ getHalfLivesForSteadyState (-7) = 5 ∧
    getHalfLivesForSteadyState 150 = 5 :=
  ⟨getHalfLivesForSteadyState_table.2.2.2.2 0 (by decide) (by decide) (by decide) (by decide),
   getHalfLivesForSteadyState_table.2.2.2.2 (-7) (by decide) (by decide) (by decide)
     (by decide),
   getHalfLivesForSteadyState_table.2.2.2.2 150 (by decide) (by decide) (by decide)
     (by decide)⟩

/-- C3: `convertToHours` divides minutes by 60, leaves hours unchanged, multiplies days by
24, and passes the value through for every other unit string; 120 minutes are 2 hours,
3 days are 72 hours, 5 hours are 5 hours. -/
theorem convertToHours_cases (v : ℚ) :
    convertToHours v "minutes" = v / 60 ∧ convertToHours v "hours" = v ∧
    convertToHours v "days" = v * 24 ∧
    (∀ unit : String, unit ≠ "minutes" → unit ≠ "hours" → unit ≠ "days" →
      convertToHours v unit = v) ∧
    convertToHours 120 "minutes" = 2 ∧ convertToHours 3 "days" = 72 ∧
    convertToHours 5 "hours" = 5 := by
  refine ⟨by simp [convertToHours], by simp [convertToHours], by simp [convertToHours], ?_,
    by decide!, by decide!, by decide!⟩
  intro unit h1 h2 h3
  simp [convertToHours, h1, h2, h3]

/-- Witness for C3: the unknown unit "weeks" passes 7 through unchanged. -/
theorem convertToHours_cases_witness : convertToHours 7 "weeks" = 7 :=
  (convertToHours_cases 7).2.2.2.1 "weeks" (by decide) (by decide) (by decide)

/-- C4, counterexample: `+Infinity` is not a positive finite number, yet `validateInput`
does not fail with the InvalidValue message on it: it fails with the UnusuallyHigh one. -/
theorem validateInput_posInf_not_invalidValue :
    ¬ JSNumber.IsPositiveFinite .posInf ∧
    validateInput .posInf ≠ ⟨false, some invalidValueMessage⟩ ∧
    validateInput .posInf = ⟨false, some unusuallyHighMessage⟩ := by
  refine ⟨?_, by decide, by decide⟩
  rintro ⟨q, hq, -⟩
  cases hq

/-- C4, amended: `validateInput` fails with the InvalidValue message exactly when the
parsed value is `NaN`, zero or negative (`-Infinity` included), fails with the
UnusuallyHigh message exactly when the value is greater than 1000 (`+Infinity` included),
and succeeds exactly on the finite values in `(0, 1000]`; -5 and 0 give InvalidValue, 1500
gives UnusuallyHigh, 48 is accepted. -/
theorem validateInput_outcomes (v : JSNumber) :
    (validateInput v = ⟨false, some invalidValueMessage⟩ ↔
      (v = .nan ∨ v = .negInf ∨ ∃ q : ℚ, v = .finite q ∧ q ≤ 0)) ∧
    (validateInput v = ⟨false, some unusuallyHighMessage⟩ ↔
      (v = .posInf ∨ ∃ q : ℚ, v = .finite q ∧ 1000 < q)) ∧
    (validateInput v = ⟨true, none⟩ ↔ ∃ q : ℚ, v = .finite q ∧ 0 < q ∧ q ≤ 1000) ∧
    validateInput (.finite (-5)) = ⟨false, some invalidValueMessage⟩ ∧
    validateInput (.finite 0) = ⟨false, some invalidValueMessage⟩ ∧
    validateInput (.finite 1500) = ⟨false, some unusuallyHighMessage⟩ ∧
    validateInput (.finite 48) = ⟨true, none⟩ := by
  refine ⟨?_, ?_, ?_, by decide!, by decide!, by decide!, by decide!⟩
  · cases v with
    | finite q =>
      rw [validateInput_finite]
      by_cases h0 : q ≤ 0
      · simp [h0]
      · by_cases h1 : 1000 < q <;> simp [h0, h1, messages_ne.symm]
    | nan => simp [validateInput, JSNumber.not, invalidValueMessage]
    | posInf =>
      simp [validateInput, JSNumber.not, JSNumber.le, JSNumber.gt, invalidValueMessage]
    | negInf => simp [validateInput, JSNumber.not, JSNumber.le, invalidValueMessage]
  · cases v with
    | finite q =>
      rw [validateInput_finite]
      by_cases h0 : q ≤ 0
      · have : ¬ 1000 < q := by linarith
        simp [h0, this, messages_ne]
      · by_cases h1 : 1000 < q <;> simp [h0, h1]
    | nan => simp [validateInput, JSNumber.not, invalidValueMessage, unusuallyHighMessage]
    | posInf =>
      simp [validateInput, JSNumber.not, JSNumber.le, JSNumber.gt, unusuallyHighMessage]
    | negInf =>
      simp [validateInput, JSNumber.not, JSNumber.le, invalidValueMessage,
        unusuallyHighMessage]
  · cases v with
    | finite q =>
      rw [validateInput_finite]
      by_cases h0 : q ≤ 0
      · have : ¬ 0 < q := by linarith
        simp [h0, this]
      · have h0' : 0 < q := lt_of_not_le h0
        by_cases h1 : 1000 < q
        · have : ¬ q ≤ 1000 := by linarith
          simp [h0, h1, this]
        · have : q ≤ 1000 := le_of_not_lt h1
          simp [h0, h1, this, h0']
    | nan => simp [validateInput, JSNumber.not]
    | posInf => simp [validateInput, JSNumber.not, JSNumber.le, JSNumber.gt]
    | negInf => simp [validateInput, JSNumber.not, JSNumber.le]

/-- Witness for C4: the accepted value 1000 and the rejected values `NaN`, `-Infinity`
and 1000.5. -/
theorem validateInput_outcomes_witness :
    validateInput (.finite 1000) = ⟨true, none⟩ ∧
    validateInput .nan = ⟨false, some invalidValueMessage⟩ ∧
    validateInput .negInf = ⟨false, some invalidValueMessage⟩ ∧
    validateInput (.finite (2001 / 2)) = ⟨false, some unusuallyHighMessage⟩ :=
  ⟨(validateInput_outcomes (.finite 1000)).2.2.1.mpr ⟨1000, rfl, by norm_num, by norm_num⟩,
   (validateInput_outcomes .nan).1.mpr (Or.inl rfl),
   (validateInput_outcomes .negInf).1.mpr (Or.inr (Or.inl rfl)),
   (validateInput_outcomes (.finite (2001 / 2))).2.1.mpr
     (Or.inr ⟨2001 / 2, rfl, by norm_num⟩)⟩

/-- C5, counterexample: a half-life of 1000 days is accepted by `validateInput`, and
converted to hours it is 24000, which is more than 1000. -/
theorem accepted_days_exceed_1000_hours :
    (validateInput (.finite 1000)).ok = true ∧ 0 < (1000 : ℚ) ∧
    convertToHours 1000 "days" = 24000 ∧ ¬ (convertToHours 1000 "days" ≤ 1000) := by
  refine ⟨by decide!, by norm_num, by decide!, by decide!⟩

/-- C5, amended: every accepted half-life is a finite value with `0 < value ≤ 1000` in its
entered unit; converted to hours it is at most 1000 when the unit is minutes or hours and
at most 24000 when the unit is days. -/
theorem accepted_halfLife_bounds (v : JSNumber) (unit : String)
    (hv : (validateInput v).ok = true)
    (hu : unit = "minutes" ∨ unit = "hours" ∨ unit = "days") :
    ∃ value : ℚ, v = .finite value ∧ 0 < value ∧ value ≤ 1000 ∧
      (unit = "minutes" ∨ unit = "hours" → convertToHours value unit ≤ 1000) ∧
      (unit = "days" → convertToHours value unit ≤ 24000) := by
  obtain ⟨q, rfl, h0, h1⟩ := (validateInput_ok_iff v).mp hv
  refine ⟨q, rfl, h0, h1, ?_, ?_⟩
  · rintro (rfl | rfl)
    · simp only [convertToHours, if_true]
      linarith
    · have : convertToHours q "hours" = q := by simp [convertToHours]
      rw [this]; exact h1
  · rintro rfl
    have : convertToHours q "days" = q * 24 := by simp [convertToHours]
    rw [this]; linarith

/-- Witness for C5: 1000 days is accepted and stays within 24000 hours. -/
theorem accepted_halfLife_bounds_witness :
    (validateInput (.finite 1000)).ok = true ∧
    ∃ value : ℚ, JSNumber.finite 1000 = .finite value ∧ 0 < value ∧ value ≤ 1000 ∧
      (("days" : String) = "minutes" ∨ ("days" : String) = "hours" →
        convertToHours value "days" ≤ 1000) ∧
      (("days" : String) = "days" → convertToHours value "days" ≤ 24000) :=
  ⟨by decide!, accepted_halfLife_bounds (.finite 1000) "days" (by decide!)
    (Or.inr (Or.inr rfl))⟩

/-- `Math.round` is rounding to the nearest integer with halves going up. -/
theorem Math_round_eq_round (x : ℚ) : Math_round x = round x := by
  rw [Math_round, round_eq]

/-- On a non-negative dividend the JavaScript remainder is the flooring remainder. -/
theorem jsRem_of_nonneg (a : ℚ) (h : 0 ≤ a) : jsRem a 24 = a - 24 * ⌊a / 24⌋ := by
  have : 0 ≤ a / 24 := by positivity
  simp [jsRem, this]

/-- A non-negative integer is printed as its decimal digits, without sign or fraction. -/
theorem numberToString_intCast_nonneg (z : ℤ) (hz : 0 ≤ z) :
    numberToString (z : ℚ) = toString z.toNat := by
  have h1 : |(z : ℚ)| = z := abs_of_nonneg (by exact_mod_cast hz)
  have h2 : ¬ ((z : ℚ) < 0) := not_lt.mpr (by exact_mod_cast hz)
  simp [numberToString, h1, h2]

/-- C7: at 47 hours `formatTime` takes the combined days+hours branch, prints the day count
`floor(round(47/24 × 10)/10) = 2` although `floor(47/24) = 1`, and so shows
"2 days 23 hours" for a duration shorter than two days. -/
theorem formatTime_day_counts_diverge :
    ∃ hours : ℚ, hours = 47 ∧ 24 ≤ hours ∧ formatTime.remainingHours hours ≠ 0 ∧
      Math_floor (formatTime.days hours) ≠ ⌊hours / 24⌋ ∧
      Math_floor (formatTime.days hours) = 2 ∧ ⌊hours / 24⌋ = 1 ∧ hours < 2 * 24 ∧
      formatTime hours = "2 days 23 hours" :=
  ⟨47, rfl, by norm_num, by decide!, by decide!, by decide!, by decide!, by norm_num,
    by decide!⟩

/-- The text of `getClinicalInfo` split into label, opening, clause and closing. -/
theorem getClinicalInfo_eq (drugName : String) (steadyStateHours : ℚ) (percentage : ℤ) :
    getClinicalInfo drugName steadyStateHours percentage =
      (if drugName = "" then "" else "For " ++ drugName ++ ": ") ++
        (summaryOpening percentage ++ (timeBucketClause steadyStateHours ++ summaryClosing)) := by
  unfold getClinicalInfo summaryOpening summaryClosing timeBucketClause
  by_cases hd : drugName = "" <;> by_cases h1 : steadyStateHours < 24 <;>
    by_cases h2 : steadyStateHours < 72 <;> by_cases h3 : steadyStateHours < 168 <;>
    simp [hd, h1, h2, h3, String.append_assoc]

/-- Trimming leaves nothing exactly when every character is white space. -/
theorem jsTrim_eq_empty_iff (s : String) :
    jsTrim s = "" ↔ ∀ c ∈ s.data, isTrimmable c = true := by
  unfold jsTrim
  rw [String.ext_iff]
  show ((s.data.dropWhile isTrimmable).reverse.dropWhile isTrimmable).reverse = [] ↔ _
  rw [List.reverse_eq_nil_iff, List.dropWhile_eq_nil_iff]
  constructor
  · intro h
    have hnil : s.data.dropWhile isTrimmable = [] := by
      cases hd : s.data.dropWhile isTrimmable with
      | nil => rfl
      | cons a l =>
        have ha : isTrimmable a = true := h a (by simp [hd])
        have := List.head_dropWhile_not isTrimmable s.data (by simp [hd])
        simp [hd, ha] at this
    exact List.dropWhile_eq_nil_iff.mp hnil
  · intro h
    have hnil : s.data.dropWhile isTrimmable = [] := List.dropWhile_eq_nil_iff.mpr h
    simp [hnil]

/-- C9, counterexample: the drug name consisting of two blanks is empty after trimming, yet
`getClinicalInfo` puts the label "For   : " in front of the summary. -/
theorem getClinicalInfo_blank_name_labelled :
    jsTrim "  " = "" ∧
    getClinicalInfo "  " 10 90 = "For   : " ++ getClinicalInfo "" 10 90 ∧
    getClinicalInfo "  " 10 90 =
      "For   : At 90% steady state, the drug concentration will be relatively stable. Steady state will be reached within the first day of therapy. This is the optimal time for therapeutic drug monitoring and dosage adjustments." :=
  ⟨by decide!, by decide!, by decide!⟩

/-- C9, amended: `getClinicalInfo` puts "For {drugName}: " in front of the summary exactly
when the drug name it is given is non-empty, and for the empty name the summary starts
directly with "At {percentage}% steady state"; it does not trim.  `calculateSteadyState`
passes it the trimmed drug-name field, which is empty exactly when the field holds only
white space, so the summary it displays carries the label exactly when the field is
non-empty after trimming. -/
theorem getClinicalInfo_label_iff_nonempty (drugName : String) (steadyStateHours : ℚ)
    (percentage : ℤ) :
    (drugName ≠ "" → getClinicalInfo drugName steadyStateHours percentage =
      "For " ++ drugName ++ ": " ++ getClinicalInfo "" steadyStateHours percentage) ∧
    (∃ rest : String, getClinicalInfo "" steadyStateHours percentage =
      "At " ++ numberToString percentage ++ "% steady state" ++ rest) ∧
    (jsTrim drugName = "" ↔ ∀ c ∈ drugName.data, isTrimmable c = true) ∧
    (∀ (halfLife : JSNumber) (timeUnit : String),
      (validateInput halfLife).ok = true →
      ∃ r : Results, ∃ hours : ℚ,
        calculateSteadyState ⟨drugName, halfLife, timeUnit, percentage⟩ = .results r ∧
        (jsTrim drugName ≠ "" → r.clinicalInfo =
          "For " ++ jsTrim drugName ++ ": " ++ getClinicalInfo "" hours percentage) ∧
        (jsTrim drugName = "" → r.clinicalInfo = getClinicalInfo "" hours percentage)) := by
  have hlabel : ∀ (d : String) (h : ℚ), d ≠ "" →
      getClinicalInfo d h percentage = "For " ++ d ++ ": " ++ getClinicalInfo "" h percentage := by
    intro d h hd
    rw [getClinicalInfo_eq d, getClinicalInfo_eq ""]
    simp [hd]
  refine ⟨hlabel drugName steadyStateHours, ?_, jsTrim_eq_empty_iff drugName, ?_⟩
  · refine ⟨", the drug concentration will be relatively stable. " ++
      (timeBucketClause steadyStateHours ++ summaryClosing), ?_⟩
    rw [getClinicalInfo_eq]
    simp only [summaryOpening, if_true, String.empty_append, String.append_assoc]
    have : ("% steady state, the drug concentration will be relatively stable. " : String) =
        "% steady state" ++ ", the drug concentration will be relatively stable. " := by decide
    rw [this, String.append_assoc]
  · intro halfLife timeUnit hv
    obtain ⟨q, hq, h0, h1⟩ := (validateInput_ok_iff _).mp hv
    refine ⟨_, convertToHours q timeUnit * getHalfLivesForSteadyState percentage,
      calculateSteadyState_accepted ⟨drugName, halfLife, timeUnit, percentage⟩ q hq h0 h1,
      ?_, ?_⟩
    · intro hne
      exact hlabel _ _ hne
    · intro he
      show getClinicalInfo (jsTrim drugName) _ _ = _
      rw [he]

/-- Witness for C9: the name "Digoxin" is labelled, and the field " Digoxin " reaches the
summary trimmed. -/
theorem getClinicalInfo_label_iff_nonempty_witness :
    getClinicalInfo "Digoxin" 10 90 = "For " ++ "Digoxin" ++ ": " ++ getClinicalInfo "" 10 90 ∧
    ∃ r : Results, ∃ hours : ℚ,
      calculateSteadyState ⟨" Digoxin ", .finite 36, "hours", 90⟩ = .results r ∧
      r.clinicalInfo = "For " ++ "Digoxin" ++ ": " ++ getClinicalInfo "" hours 90 := by
  refine ⟨(getClinicalInfo_label_iff_nonempty "Digoxin" 10 90).1 (by decide), ?_⟩
  obtain ⟨r, hours, hr, h1, -⟩ :=
    (getClinicalInfo_label_iff_nonempty " Digoxin " 10 90).2.2.2 (.finite 36) "hours"
      (by decide!)
  have ht : jsTrim " Digoxin " = "Digoxin" := by decide!
  rw [ht] at h1
  exact ⟨r, hours, hr, h1 (by decide)⟩

/-- From 24 hours on, the rounded hour remainder is not negative. -/
theorem remainingHours_nonneg (hours : ℚ) (h : 24 ≤ hours) :
    0 ≤ formatTime.remainingHours hours := by
  have h0 : (0 : ℚ) ≤ hours := by linarith
  unfold formatTime.remainingHours Math_round
  rw [jsRem_of_nonneg hours h0]
  apply Int.le_floor.mpr
  have hk : (⌊hours / 24⌋ : ℚ) ≤ hours / 24 := Int.floor_le _
  push_cast
  linarith

/-- Ten times the rounded day count lies between ten times the elapsed whole days and ten
more. -/
theorem tenths_bounds (hours : ℚ) :
    10 * ⌊hours / 24⌋ ≤ Math_round (hours / 24 * 10) ∧
    Math_round (hours / 24 * 10) ≤ 10 * ⌊hours / 24⌋ + 10 := by
  have hk1 : (⌊hours / 24⌋ : ℚ) ≤ hours / 24 := Int.floor_le _
  have hk2 : hours / 24 < ⌊hours / 24⌋ + 1 := Int.lt_floor_add_one _
  unfold Math_round
  constructor
  · apply Int.le_floor.mpr
    push_cast
    linarith
  · have : ⌊hours / 24 * 10 + 1 / 2⌋ < 10 * ⌊hours / 24⌋ + 11 := by
      apply Int.floor_lt.mpr
      push_cast
      linarith
    omega

/-- The whole-day count printed in the combined branch is the number of elapsed whole days
or one more. -/
theorem floor_days_cases (hours : ℚ) :
    Math_floor (formatTime.days hours) = ⌊hours / 24⌋ ∨
    Math_floor (formatTime.days hours) = ⌊hours / 24⌋ + 1 := by
  obtain ⟨h1, h2⟩ := tenths_bounds hours
  have hq1 : ((10 * ⌊hours / 24⌋ : ℤ) : ℚ) ≤ Math_round (hours / 24 * 10) := by
    exact_mod_cast h1
  have hq2 : ((Math_round (hours / 24 * 10) : ℤ) : ℚ) ≤ ((10 * ⌊hours / 24⌋ + 10 : ℤ) : ℚ) := by
    exact_mod_cast h2
  push_cast at hq1 hq2
  unfold Math_floor formatTime.days
  have a1 : ⌊hours / 24⌋ ≤ ⌊(Math_round (hours / 24 * 10) : ℚ) / 10⌋ := by
    apply Int.le_floor.mpr
    linarith
  have a2 : ⌊(Math_round (hours / 24 * 10) : ℚ) / 10⌋ < ⌊hours / 24⌋ + 2 := by
    apply Int.floor_lt.mpr
    push_cast
    linarith
  omega

/-- In the days-alone branch the one-decimal day count is the number of elapsed whole
days. -/
theorem days_eq_floor_of_remainingHours_zero (hours : ℚ) (h : 24 ≤ hours)
    (hr : formatTime.remainingHours hours = 0) :
    formatTime.days hours = ⌊hours / 24⌋ := by
  have h0 : (0 : ℚ) ≤ hours := by linarith
  have hk1 : (⌊hours / 24⌋ : ℚ) ≤ hours / 24 := Int.floor_le _
  unfold formatTime.remainingHours Math_round at hr
  rw [jsRem_of_nonneg hours h0] at hr
  have hlt := Int.lt_floor_add_one (hours - 24 * (⌊hours / 24⌋ : ℚ) + 1 / 2)
  rw [hr] at hlt
  push_cast at hlt
  have hm : Math_round (hours / 24 * 10) = 10 * ⌊hours / 24⌋ := by
    unfold Math_round
    rw [Int.floor_eq_iff]
    push_cast
    constructor <;> linarith
  unfold formatTime.days
  rw [hm]
  push_cast
  ring

/-- C10: for every `hours ≥ 24` (exact arithmetic, halves rounded up) the day count printed
by `formatTime` is a whole number, `floor(hours/24)` or `floor(hours/24) + 1`; in the
days-alone branch the one-decimal value `round(hours/24 × 10)/10` equals `floor(hours/24)`
and is printed as that integer, so no fractional number of days is ever printed. -/
theorem formatTime_day_count_whole (hours : ℚ) (h : 24 ≤ hours) :
    (formatTime.remainingHours hours = 0 →
      formatTime.days hours = ⌊hours / 24⌋ ∧
      formatTime hours =
        toString ⌊hours / 24⌋.toNat ++ " day" ++ (if ⌊hours / 24⌋ ≠ 1 then "s" else "")) ∧
    (formatTime.remainingHours hours ≠ 0 →
      ∃ d : ℤ, (d = ⌊hours / 24⌋ ∨ d = ⌊hours / 24⌋ + 1) ∧
        Math_floor (formatTime.days hours) = d ∧
        formatTime hours =
          toString d.toNat ++ " day" ++ (if d ≠ 1 then "s" else "") ++ " " ++
            toString (formatTime.remainingHours hours).toNat ++ " hour" ++
            (if formatTime.remainingHours hours ≠ 1 then "s" else "")) := by
  have hk : 1 ≤ ⌊hours / 24⌋ := by
    apply Int.le_floor.mpr
    push_cast
    linarith
  have h1 : ¬ hours < 1 := not_lt.mpr (by linarith)
  have h24 : ¬ hours < 24 := not_lt.mpr h
  constructor
  · intro hr
    have hd := days_eq_floor_of_remainingHours_zero hours h hr
    refine ⟨hd, ?_⟩
    unfold formatTime
    simp only [h1, h24, if_false, hr, if_true, hd]
    rw [numberToString_intCast_nonneg _ (by omega)]
    have c1 : ((⌊hours / 24⌋ : ℚ) ≠ 1) = (⌊hours / 24⌋ ≠ 1) := by simp
    simp only [c1]
  · intro hr
    have hcases := floor_days_cases hours
    refine ⟨Math_floor (formatTime.days hours), hcases, rfl, ?_⟩
    have hdn : 0 ≤ Math_floor (formatTime.days hours) := by omega
    unfold formatTime
    simp only [h1, h24, if_false, hr]
    rw [numberToString_intCast_nonneg _ hdn,
      numberToString_intCast_nonneg _ (remainingHours_nonneg hours h)]

/-- Witness for C10: 48 hours print the whole day count 2, and 47 hours print the day
count 2, one more than the single elapsed whole day. -/
theorem formatTime_day_count_whole_witness :
    formatTime.days 48 = ⌊(48 : ℚ) / 24⌋ ∧
    ∃ d : ℤ, (d = ⌊(47 : ℚ) / 24⌋ ∨ d = ⌊(47 : ℚ) / 24⌋ + 1) ∧
      Math_floor (formatTime.days 47) = d :=
  ⟨((formatTime_day_count_whole 48 (by norm_num)).1 (by decide!)).1,
   by
    obtain ⟨d, hd, hf, -⟩ := (formatTime_day_count_whole 47 (by norm_num)).2 (by decide!)
    exact ⟨d, hd, hf⟩⟩

/-- On an accepted half-life the double-precision `calculateSteadyState` shows results,
computed from the double product of the converted half-life and the multiplier. -/
theorem calculateSteadyState_accepted_double (form : F64.Form) (q : ℚ)
    (hq : form.halfLife = .finite q) (h0 : 0 < q) (h1 : q ≤ 1000) :
    F64.calculateSteadyState form = .results
      { steadyStateHours := F64.mul (F64.convertToHours q form.timeUnit)
          (F64.getHalfLivesForSteadyState form.steadyStateLevel)
        steadyStateTime := F64.formatTime (F64.mul (F64.convertToHours q form.timeUnit)
          (F64.getHalfLivesForSteadyState form.steadyStateLevel))
        halfLivesCount :=
          F64.numberToString (F64.getHalfLivesForSteadyState form.steadyStateLevel)
            ++ " half-lives"
        steadyStatePercent := F64.jsNumberToString form.steadyStateLevel ++ "%"
        clinicalInfo := F64.getClinicalInfo (jsTrim form.drugName)
          (F64.mul (F64.convertToHours q form.timeUnit)
            (F64.getHalfLivesForSteadyState form.steadyStateLevel))
          form.steadyStateLevel } := by
  have hok : (validateInput form.halfLife).ok = true :=
    (validateInput_ok_iff _).mpr ⟨q, hq, h0, h1⟩
  unfold F64.calculateSteadyState
  simp only [hok, Bool.not_true, Bool.false_eq_true, if_false]
  rw [hq]

/-- C1, counterexample: for a half-life of 24 hours at 95 % the computed steady-state time
is the double `1815513599783731 / 2 ^ 44`, printed 103.19999999999999; it is neither the
number 103.2 nor the double written `103.2`. -/
theorem calculateSteadyState_24h_95_below_103_2 :
    ∃ r : Results,
      F64.calculateSteadyState ⟨"", .finite 24, "hours", .finite 95⟩ = .results r ∧
      r.steadyStateHours = 1815513599783731 / 17592186044416 ∧
      r.steadyStateHours ≠ 1032 / 10 ∧
      r.steadyStateHours ≠ F64.toDouble (1032 / 10) ∧
      F64.numberToString r.steadyStateHours = "103.19999999999999" ∧
      F64.numberToString (F64.toDouble (1032 / 10)) = "103.2" :=
  ⟨_, calculateSteadyState_accepted_double ⟨"", .finite 24, "hours", .finite 95⟩ 24 rfl
      (by norm_num) (by norm_num),
    by decide!, by decide!, by decide!, by decide!, by decide!⟩

/-- C1, amended: whenever `validateInput` accepts the half-life, `calculateSteadyState`
computes `steadyStateHours` as the double-precision product
`convertToHours(v, u) * getHalfLivesForSteadyState(p)`, that is the exact product rounded
once to the nearest double, and hands that very value, with nothing added and no further
rounding, to `formatTime` and `getClinicalInfo`; a half-life of 24 hours at 95 % gives the
double printed 103.19999999999999, shown as "4 days 7 hours". -/
theorem calculateSteadyState_steadyStateHours_double (form : F64.Form)
    (hv : (validateInput form.halfLife).ok = true) :
    (∃ v : ℚ, ∃ r : Results, form.halfLife = .finite v ∧
      F64.calculateSteadyState form = .results r ∧
      r.steadyStateHours = F64.toDouble (F64.convertToHours v form.timeUnit *
        F64.getHalfLivesForSteadyState form.steadyStateLevel) ∧
      r.steadyStateTime = F64.formatTime r.steadyStateHours ∧
      r.clinicalInfo = F64.getClinicalInfo (jsTrim form.drugName) r.steadyStateHours
        form.steadyStateLevel) ∧
    (∀ name : String, ∃ r : Results,
      F64.calculateSteadyState ⟨name, .finite 24, "hours", .finite 95⟩ = .results r ∧
      r.steadyStateHours = F64.toDouble (24 * F64.toDouble (43 / 10)) ∧
      F64.numberToString r.steadyStateHours = "103.19999999999999" ∧
      r.steadyStateTime = "4 days 7 hours") := by
  constructor
  · obtain ⟨q, hq, h0, h1⟩ := (validateInput_ok_iff _).mp hv
    exact ⟨q, _, hq, calculateSteadyState_accepted_double form q hq h0 h1, rfl, rfl, rfl⟩
  · intro name
    refine ⟨_, calculateSteadyState_accepted_double ⟨name, .finite 24, "hours", .finite 95⟩ 24
      rfl (by norm_num) (by norm_num), ?_, ?_, ?_⟩
    · show F64.mul (F64.convertToHours 24 "hours")
        (F64.getHalfLivesForSteadyState (.finite 95)) = _
      decide!
    · show F64.numberToString (F64.mul (F64.convertToHours 24 "hours")
        (F64.getHalfLivesForSteadyState (.finite 95))) = _
      decide!
    · show F64.formatTime (F64.mul (F64.convertToHours 24 "hours")
        (F64.getHalfLivesForSteadyState (.finite 95))) = _
      decide!

/-- Witness for C1: 5 minutes at 90 % is accepted, gives the double 0.27499999999999997
hours and is shown as "16 minutes"; 90 minutes at 90 % is shown as "4.9 hours"; 116 hours at
90 % is shown as "15 days 23 hours"; a level that `parseInt` could not read (`NaN`) takes
the multiplier 5 and is printed as "NaN". -/
theorem calculateSteadyState_steadyStateHours_double_witness :
    (validateInput (.finite 5)).ok = true ∧
    (∃ v : ℚ, ∃ r : Results, JSNumber.finite 5 = .finite v ∧
      F64.calculateSteadyState ⟨"", .finite 5, "minutes", .finite 90⟩ = .results r ∧
      r.steadyStateHours =
        F64.toDouble (F64.convertToHours v "minutes" *
          F64.getHalfLivesForSteadyState (.finite 90)) ∧
      r.steadyStateTime = F64.formatTime r.steadyStateHours ∧
      r.clinicalInfo = F64.getClinicalInfo (jsTrim "") r.steadyStateHours (.finite 90)) ∧
    F64.calculateSteadyState ⟨"", .finite 5, "minutes", .finite 90⟩ = .results
      ⟨4953959590107545 / 18014398509481984, "16 minutes", "3.3 half-lives", "90%",
        "At 90% steady state, the drug concentration will be relatively stable. Steady state will be reached within the first day of therapy. This is the optimal time for therapeutic drug monitoring and dosage adjustments."⟩ ∧
    F64.numberToString (4953959590107545 / 18014398509481984) = "0.27499999999999997" ∧
    F64.calculateSteadyState ⟨"", .finite 90, "minutes", .finite 90⟩ = .results
      ⟨1393301134717747 / 281474976710656, "4.9 hours", "3.3 half-lives", "90%",
        "At 90% steady state, the drug concentration will be relatively stable. Steady state will be reached within the first day of therapy. This is the optimal time for therapeutic drug monitoring and dosage adjustments."⟩ ∧
    F64.calculateSteadyState ⟨"", .finite 116, "hours", .finite 90⟩ = .results
      ⟨1683572204450611 / 4398046511104, "15 days 23 hours", "3.3 half-lives", "90%",
        "At 90% steady state, the drug concentration will be relatively stable. Steady state will take more than a week to achieve. Consider loading dose if appropriate. This is the optimal time for therapeutic drug monitoring and dosage adjustments."⟩ ∧
    F64.calculateSteadyState ⟨" Digoxin ", .finite 2, "days", .nan⟩ = .results
      ⟨240, "10 days", "5 half-lives", "NaN%",
        "For Digoxin: At NaN% steady state, the drug concentration will be relatively stable. Steady state will take more than a week to achieve. Consider loading dose if appropriate. This is the optimal time for therapeutic drug monitoring and dosage adjustments."⟩ :=
  ⟨by decide!,
   (calculateSteadyState_steadyStateHours_double ⟨"", .finite 5, "minutes", .finite 90⟩
     (by decide!)).1,
   by decide!, by decide!, by decide!, by decide!, by decide!⟩

/-- The pluralisation rule with the unit word glued to its leading blank. -/
theorem withUnit_eq_double (q : ℚ) (word : String) :
    F64.withUnit q word =
      F64.numberToString q ++ ((" " ++ word) ++ (if q ≠ 1 then "s" else "")) := by
  unfold F64.withUnit
  by_cases h : q = 1 <;> simp [h, String.append_assoc]

/-- C6: for every `hours ≥ 0`, `formatTime` agrees with the specification's piecewise rule
(minutes below one hour, one-decimal hours below a day, then days alone or whole days plus
hours, each unit word pluralised unless its quantity is exactly 1), both evaluated in double
arithmetic; 0.5 h is "30 minutes", 1 h is "1 hour", 36 h is "1 day 12 hours" and 48 h is
"2 days".  Further values fix the rendering: 2.5 h is "2.5 hours", the double 0.175 is
"11 minutes", the double 46.8 is "2 days 23 hours". -/
theorem formatTime_eq_formatDuration_spec (hours : ℚ) (h0 : 0 ≤ hours) :
    F64.formatTime hours = F64.formatDuration_spec hours ∧
    F64.formatTime (1 / 2) = "30 minutes" ∧ F64.formatTime 1 = "1 hour" ∧
    F64.formatTime 36 = "1 day 12 hours" ∧ F64.formatTime 48 = "2 days" ∧
    F64.formatTime (5 / 2) = "2.5 hours" ∧
    F64.formatTime (3152519739159347 / 18014398509481984) = "11 minutes" ∧
    F64.formatTime (F64.toDouble (468 / 10)) = "2 days 23 hours" := by
  refine ⟨?_, by decide!, by decide!, by decide!, by decide!, by decide!, by decide!,
    by decide!⟩
  have e1 : (" " ++ "minute" : String) = " minute" := by decide
  have e2 : (" " ++ "hour" : String) = " hour" := by decide
  have e3 : (" " ++ "day" : String) = " day" := by decide
  unfold F64.formatTime F64.formatDuration_spec
  by_cases h1 : hours < 1
  · simp only [h1, if_true, withUnit_eq_double, e1, Math_round_eq_round, String.append_assoc]
    by_cases hm : round (F64.mul hours 60) = 1
    · simp [hm]
    · have : ((round (F64.mul hours 60) : ℤ) : ℚ) ≠ 1 := by exact_mod_cast hm
      simp [hm, this]
  · by_cases h2 : hours < 24
    · simp only [h1, h2, if_true, if_false, withUnit_eq_double, e2, Math_round_eq_round,
        String.append_assoc]
    · simp only [h1, h2, if_false, F64.formatTime.days, F64.formatTime.remainingHours,
        Math_floor, jsRem_of_nonneg hours h0, Math_round_eq_round]
      by_cases hr : round (hours - 24 * (⌊hours / 24⌋ : ℚ)) = 0
      · simp only [hr, if_true, withUnit_eq_double, e3, String.append_assoc]
      · simp only [hr, if_false, withUnit_eq_double, e2, e3, String.append_assoc]
        have c1 : ∀ z : ℤ, ((z : ℚ) ≠ 1) = (z ≠ 1) := by
          intro z; simp
        simp only [c1]

/-- Witness for C6: at the double 4.949999999999999 both definitions print "4.9 hours", at
48000000000000024 hours both print "2000000000000000.8 days", and at the double written
`1e300` both print the day count in exponent form. -/
theorem formatTime_eq_formatDuration_spec_witness :
    F64.formatTime (1393301134717747 / 281474976710656) =
      F64.formatDuration_spec (1393301134717747 / 281474976710656) ∧
    F64.formatTime (1393301134717747 / 281474976710656) = "4.9 hours" ∧
    F64.formatDuration_spec (1393301134717747 / 281474976710656) = "4.9 hours" ∧
    F64.formatTime 48000000000000024 = F64.formatDuration_spec 48000000000000024 ∧
    F64.formatTime 48000000000000024 = "2000000000000000.8 days" ∧
    F64.formatTime (F64.toDouble (10 ^ 300)) =
      F64.formatDuration_spec (F64.toDouble (10 ^ 300)) ∧
    F64.formatTime (F64.toDouble (10 ^ 300)) = "4.166666666666667e+298 days" ∧
    F64.numberToString (F64.pow2 (-1074)) = "5e-324" ∧
    F64.numberToString (F64.toDouble (1 / 10 ^ 7)) = "1e-7" ∧
    F64.numberToString (10 ^ 21) = "1e+21" ∧
    F64.numberToString (F64.toDouble (123456789012345678901 / 10)) = "12345678901234567000" :=
  ⟨(formatTime_eq_formatDuration_spec (1393301134717747 / 281474976710656)
      (by norm_num)).1, by decide!, by decide!,
   (formatTime_eq_formatDuration_spec 48000000000000024 (by norm_num)).1, by decide!,
   (formatTime_eq_formatDuration_spec (F64.toDouble (10 ^ 300)) (by decide!)).1,
   by decide!, by decide!, by decide!, by decide!, by decide!⟩

/-- An occurrence cannot start inside a part that lacks its first character. -/
theorem infix_append_of_head_not_mem {α : Type} (a : α) (P X Y : List α) (h : a ∉ X) :
    a :: P <:+: X ++ Y ↔ a :: P <:+: Y := by
  constructor
  · intro hi
    induction X with
    | nil => simpa using hi
    | cons x X ih =>
      rw [List.cons_append, List.infix_cons_iff] at hi
      rcases hi with hp | hi
      · rw [List.cons_prefix_cons] at hp
        exact absurd (hp.1 ▸ List.mem_cons_self _ _) h
      · exact ih (fun hm => h (List.mem_cons_of_mem _ hm)) hi
  · intro hi
    exact hi.trans (List.suffix_append X Y).isInfix

/-- An occurrence cannot run across a character it does not contain. -/
theorem infix_append_cons_of_not_mem {α : Type} (c : α) (P X Y : List α) (h : c ∉ P) :
    P <:+: X ++ c :: Y ↔ P <:+: X ∨ P <:+: Y := by
  constructor
  · rintro ⟨s, t, e⟩
    rw [List.append_assoc] at e
    rcases List.append_eq_append_iff.mp e with ⟨a', e1, e2⟩ | ⟨c', e1, e2⟩
    · -- X = s ++ a', P ++ t = a' ++ c :: Y
      rcases List.append_eq_append_iff.mp e2 with ⟨b', e3, e4⟩ | ⟨d', e3, e4⟩
      · -- a' = P ++ b'
        left
        exact ⟨s, b', by rw [e1, e3, List.append_assoc]⟩
      · -- P = a' ++ d', c :: Y = d' ++ t
        cases d' with
        | nil =>
          left
          simp at e3
          exact ⟨s, [], by rw [e1, e3]; simp⟩
        | cons x d' =>
          simp at e4
          exact absurd (by rw [e3, e4.1]; simp) h
    · -- s = X ++ c', c :: Y = c' ++ (P ++ t)
      cases c' with
      | nil =>
        simp at e2
        cases P with
        | nil => left; exact List.nil_infix
        | cons p P =>
          simp at e2
          exact absurd (by rw [e2.1]; simp) h
      | cons x c' =>
        right
        simp at e2
        exact ⟨c', t, by rw [e2.2]; simp⟩
  · rintro (hi | hi)
    · exact hi.trans (List.prefix_append X _).isInfix
    · exact hi.trans ((List.suffix_cons c Y).isInfix.trans (List.suffix_append X _).isInfix)

/-- Every character of the decimal representation of a natural number is a digit. -/
theorem toDigitsCore_isDigit (fuel : Nat) : ∀ (n : Nat) (ds : List Char),
    (∀ c ∈ ds, c.isDigit = true) → ∀ c ∈ Nat.toDigitsCore 10 fuel n ds, c.isDigit = true := by
  induction fuel with
  | zero => intro n ds h c hc; exact h c (by simpa [Nat.toDigitsCore] using hc)
  | succ fuel ih =>
    intro n ds h c hc
    have hd : (Nat.digitChar (n % 10)).isDigit = true := by
      have hlt : n % 10 < 10 := Nat.mod_lt _ (by norm_num)
      generalize n % 10 = m at hlt
      interval_cases m <;> decide
    have hds : ∀ c ∈ Nat.digitChar (n % 10) :: ds, c.isDigit = true := by
      intro c hc
      rcases List.mem_cons.mp hc with rfl | hc
      · exact hd
      · exact h c hc
    unfold Nat.toDigitsCore at hc
    by_cases h0 : n / 10 = 0
    · simp only [h0, if_true] at hc
      exact hds c hc
    · simp only [h0, if_false] at hc
      exact ih _ _ hds c hc

/-- Every character of the printed form of a natural number is a digit. -/
theorem natToString_isDigit (n : Nat) : ∀ c ∈ (toString n).data, c.isDigit = true := by
  intro c hc
  exact toDigitsCore_isDigit _ n [] (by simp) c hc

/-- A negative integer is printed as a minus sign and the digits of its absolute value. -/
theorem numberToString_intCast_neg (z : ℤ) (hz : z < 0) :
    numberToString (z : ℚ) = "-" ++ toString z.natAbs := by
  have hq : ((z : ℚ) < 0) := by exact_mod_cast hz
  have h1 : |(z : ℚ)| = ((-z : ℤ) : ℚ) := by
    rw [abs_of_neg hq]; push_cast; rfl
  have h2 : (-z).toNat = z.natAbs := by omega
  unfold numberToString
  simp only [h1, Int.floor_intCast, sub_self, if_true, hq, h2, String.append_empty]

/-- The printed form of an integer consists of digits and possibly a minus sign. -/
theorem numberToString_intCast_chars (z : ℤ) :
    ∀ c ∈ (numberToString (z : ℚ)).data, c.isDigit = true ∨ c = '-' := by
  intro c hc
  by_cases hz : 0 ≤ z
  · rw [numberToString_intCast_nonneg z hz] at hc
    exact Or.inl (natToString_isDigit _ c hc)
  · rw [numberToString_intCast_neg z (not_le.mp hz)] at hc
    simp only [String.data_append, List.mem_append] at hc
    rcases hc with hc | hc
    · right
      simpa using hc
    · exact Or.inl (natToString_isDigit _ c hc)

/-- The unlabelled summary is "At ", the printed percentage, and the summary tail. -/
theorem getClinicalInfo_unlabelled (h : ℚ) (p : ℤ) :
    getClinicalInfo "" h p = "At " ++ (numberToString p ++ summaryTail h) := by
  rw [getClinicalInfo_eq]
  simp [summaryOpening, summaryTail, String.append_assoc]

/-- A phrase that starts with a letter other than `A` and `t` occurs in the unlabelled
summary only after the printed percentage. -/
theorem contains_unlabelled_iff (h : ℚ) (p : ℤ) (P : String) (a : Char) (P' : List Char)
    (hP : P.data = a :: P') (ha : a.isDigit = false) (ha' : a ∉ ['A', 't', ' ', '-']) :
    Contains (getClinicalInfo "" h p) P ↔ Contains (summaryTail h) P := by
  unfold Contains
  rw [getClinicalInfo_unlabelled, hP]
  simp only [String.data_append]
  rw [← List.append_assoc]
  apply infix_append_of_head_not_mem
  intro hm
  rcases List.mem_append.mp hm with hm | hm
  · apply ha'
    simp at hm ⊢
    tauto
  · rcases numberToString_intCast_chars p a hm with hd | hd
    · rw [ha] at hd; exact absurd hd (by decide)
    · apply ha'; simp [hd]

/-- The summary tail is one of four fixed texts, selected by the hour range. -/
theorem summaryTail_cases (h : ℚ) :
    (h < 24 ∧ summaryTail h = summaryTail 0) ∨
    (24 ≤ h ∧ h < 72 ∧ summaryTail h = summaryTail 24) ∨
    (72 ≤ h ∧ h < 168 ∧ summaryTail h = summaryTail 72) ∨
    (168 ≤ h ∧ summaryTail h = summaryTail 168) := by
  by_cases h1 : h < 24
  · left
    exact ⟨h1, by simp [summaryTail, timeBucketClause, h1]⟩
  · right
    by_cases h2 : h < 72
    · left
      exact ⟨not_lt.mp h1, h2, by simp [summaryTail, timeBucketClause, h1, h2]; norm_num⟩
    · right
      by_cases h3 : h < 168
      · left
        exact ⟨not_lt.mp h2, h3, by simp [summaryTail, timeBucketClause, h1, h2, h3]; norm_num⟩
      · right
        exact ⟨not_lt.mp h3, by simp [summaryTail, timeBucketClause, h1, h2, h3]; norm_num⟩

/-- Which clause texts occur in the summary tail. -/
theorem summaryTail_contains (h : ℚ) :
    (Contains (summaryTail h) firstDayClause ↔ h < 24) ∧
    (Contains (summaryTail h) twoThreeDaysClause ↔ 24 ≤ h ∧ h < 72) ∧
    (Contains (summaryTail h) firstWeekClause ↔ 72 ≤ h ∧ h < 168) ∧
    (Contains (summaryTail h) moreThanAWeekClause ↔ 168 ≤ h) := by
  have a1 : Contains (summaryTail 0) firstDayClause := by decide!
  have a2 : ¬ Contains (summaryTail 0) twoThreeDaysClause := by decide!
  have a3 : ¬ Contains (summaryTail 0) firstWeekClause := by decide!
  have a4 : ¬ Contains (summaryTail 0) moreThanAWeekClause := by decide!
  have b1 : ¬ Contains (summaryTail 24) firstDayClause := by decide!
  have b2 : Contains (summaryTail 24) twoThreeDaysClause := by decide!
  have b3 : ¬ Contains (summaryTail 24) firstWeekClause := by decide!
  have b4 : ¬ Contains (summaryTail 24) moreThanAWeekClause := by decide!
  have c1 : ¬ Contains (summaryTail 72) firstDayClause := by decide!
  have c2 : ¬ Contains (summaryTail 72) twoThreeDaysClause := by decide!
  have c3 : Contains (summaryTail 72) firstWeekClause := by decide!
  have c4 : ¬ Contains (summaryTail 72) moreThanAWeekClause := by decide!
  have d1 : ¬ Contains (summaryTail 168) firstDayClause := by decide!
  have d2 : ¬ Contains (summaryTail 168) twoThreeDaysClause := by decide!
  have d3 : ¬ Contains (summaryTail 168) firstWeekClause := by decide!
  have d4 : Contains (summaryTail 168) moreThanAWeekClause := by decide!
  rcases summaryTail_cases h with ⟨h1, e⟩ | ⟨h1, h2, e⟩ | ⟨h1, h2, e⟩ | ⟨h1, e⟩ <;> rw [e]
  · exact ⟨⟨fun _ => h1, fun _ => a1⟩,
      ⟨fun x => absurd x a2, fun x => absurd h1 (not_lt.mpr x.1)⟩,
      ⟨fun x => absurd x a3, fun x => absurd h1 (not_lt.mpr (by linarith [x.1]))⟩,
      ⟨fun x => absurd x a4, fun x => absurd h1 (not_lt.mpr (by linarith))⟩⟩
  · exact ⟨⟨fun x => absurd x b1, fun x => absurd x (not_lt.mpr h1)⟩,
      ⟨fun _ => ⟨h1, h2⟩, fun _ => b2⟩,
      ⟨fun x => absurd x b3, fun x => absurd h2 (not_lt.mpr x.1)⟩,
      ⟨fun x => absurd x b4, fun x => absurd h2 (not_lt.mpr (by linarith))⟩⟩
  · exact ⟨⟨fun x => absurd x c1, fun x => absurd x (not_lt.mpr (by linarith))⟩,
      ⟨fun x => absurd x c2, fun x => absurd x.2 (not_lt.mpr h1)⟩,
      ⟨fun _ => ⟨h1, h2⟩, fun _ => c3⟩,
      ⟨fun x => absurd x c4, fun x => absurd h2 (not_lt.mpr x)⟩⟩
  · exact ⟨⟨fun x => absurd x d1, fun x => absurd x (not_lt.mpr (by linarith))⟩,
      ⟨fun x => absurd x d2, fun x => absurd x.2 (not_lt.mpr (by linarith))⟩,
      ⟨fun x => absurd x d3, fun x => absurd x.2 (not_lt.mpr h1)⟩,
      ⟨fun _ => h1, fun _ => d4⟩⟩

/-- The text of `getClinicalInfo` is the optional label followed by the unlabelled text. -/
theorem getClinicalInfo_label (d : String) (h : ℚ) (p : ℤ) :
    getClinicalInfo d h p =
      (if d = "" then "" else "For " ++ d ++ ": ") ++ getClinicalInfo "" h p := by
  rw [getClinicalInfo_eq, getClinicalInfo_eq ""]
  simp

/-- A phrase without a colon that starts with a letter other than `F`, `o`, `r` occurs in
the labelled text exactly when it occurs in the drug name or in the unlabelled summary. -/
theorem contains_labelled_iff (d : String) (h : ℚ) (p : ℤ) (P : String) (a : Char)
    (P' : List Char) (hP : P.data = a :: P') (ha : a ∉ ['F', 'o', 'r', ' '])
    (hc : ':' ∉ P.data) :
    Contains (getClinicalInfo d h p) P ↔
      Contains d P ∨ Contains (getClinicalInfo "" h p) P := by
  by_cases hd : d = ""
  · subst hd
    constructor
    · exact Or.inr
    · rintro (hx | hx)
      · unfold Contains at hx
        rw [hP] at hx
        simp at hx
      · exact hx
  · have e : (getClinicalInfo d h p).data =
        (("For " : String).data ++ d.data) ++ ':' :: ([' '] ++ (getClinicalInfo "" h p).data) := by
      rw [getClinicalInfo_label d]
      simp [hd, String.data_append]
    unfold Contains
    rw [e, infix_append_cons_of_not_mem ':' _ _ _ hc, hP,
      infix_append_of_head_not_mem a P' _ _ (fun hm => ha (by simp at hm ⊢; tauto)),
      infix_append_of_head_not_mem a P' _ _ (fun hm => ha (by simp at hm ⊢; tauto))]

/-- C8, counterexample: with the drug name "within 2-3 days of therapy" and 10 hours the
returned text contains two time-bucket clauses, the first-day one chosen by the hours and
the 2-3-days one brought in by the name. -/
theorem getClinicalInfo_two_clauses :
    (10 : ℚ) < 24 ∧
    Contains (getClinicalInfo "within 2-3 days of therapy" 10 90) firstDayClause ∧
    Contains (getClinicalInfo "within 2-3 days of therapy" 10 90) twoThreeDaysClause ∧
    getClinicalInfo "within 2-3 days of therapy" 10 90 =
      "For within 2-3 days of therapy: At 90% steady state, the drug concentration will be relatively stable. Steady state will be reached within the first day of therapy. This is the optimal time for therapeutic drug monitoring and dosage adjustments." :=
  ⟨by norm_num, by decide!, by decide!, by decide!⟩

/-- C8, amended: the text of `getClinicalInfo` is the optional label "For {drugName}: "
followed by a summary made of the opening sentence with the percentage, one time-bucket
clause and the closing monitoring sentence.  The summary contains exactly one of the four
clause texts, chosen by `steadyStateHours` alone (first day below 24, 2-3 days from 24 below
72, first week from 72 below 168, more than a week from 168 on).  The label copies the drug
name verbatim, so the whole text contains a clause text exactly when the summary or the
drug name does.  For Vancomycin, 10 hours and 90 % the text starts with
"For Vancomycin: At 90% steady state" and contains "within the first day of therapy". -/
theorem getClinicalInfo_clauses (drugName : String) (steadyStateHours : ℚ)
    (percentage : ℤ) :
    getClinicalInfo drugName steadyStateHours percentage =
      (if drugName = "" then "" else "For " ++ drugName ++ ": ") ++
        getClinicalInfo "" steadyStateHours percentage ∧
    (∃ clause : String,
      getClinicalInfo "" steadyStateHours percentage =
        summaryOpening percentage ++ (clause ++ summaryClosing) ∧
      (steadyStateHours < 24 →
        clause = "Steady state will be reached within the first day of therapy. ") ∧
      (24 ≤ steadyStateHours → steadyStateHours < 72 →
        clause = "Steady state will be reached within 2-3 days of therapy. ") ∧
      (72 ≤ steadyStateHours → steadyStateHours < 168 →
        clause = "Steady state will be reached within the first week of therapy. ") ∧
      (168 ≤ steadyStateHours →
        clause = "Steady state will take more than a week to achieve. Consider loading dose if appropriate. ")) ∧
    (Contains (getClinicalInfo "" steadyStateHours percentage) firstDayClause ↔
      steadyStateHours < 24) ∧
    (Contains (getClinicalInfo "" steadyStateHours percentage) twoThreeDaysClause ↔
      24 ≤ steadyStateHours ∧ steadyStateHours < 72) ∧
    (Contains (getClinicalInfo "" steadyStateHours percentage) firstWeekClause ↔
      72 ≤ steadyStateHours ∧ steadyStateHours < 168) ∧
    (Contains (getClinicalInfo "" steadyStateHours percentage) moreThanAWeekClause ↔
      168 ≤ steadyStateHours) ∧
    (∀ phrase ∈ [firstDayClause, twoThreeDaysClause, firstWeekClause, moreThanAWeekClause],
      (Contains (getClinicalInfo drugName steadyStateHours percentage) phrase ↔
        Contains drugName phrase ∨
          Contains (getClinicalInfo "" steadyStateHours percentage) phrase)) ∧
    getClinicalInfo "Vancomycin" 10 90 =
      "For Vancomycin: At 90% steady state" ++
        (", the drug concentration will be relatively stable. Steady state will be reached " ++
          ("within the first day of therapy" ++
            ". This is the optimal time for therapeutic drug monitoring and dosage adjustments.")) := by
  have hw : ∀ P : String, ∀ P' : List Char, P.data = 'w' :: P' →
      (Contains (getClinicalInfo "" steadyStateHours percentage) P ↔
        Contains (summaryTail steadyStateHours) P) := fun P P' hP =>
    contains_unlabelled_iff _ _ P 'w' P' hP (by decide) (by decide)
  have hm : ∀ P : String, ∀ P' : List Char, P.data = 'm' :: P' →
      (Contains (getClinicalInfo "" steadyStateHours percentage) P ↔
        Contains (summaryTail steadyStateHours) P) := fun P P' hP =>
    contains_unlabelled_iff _ _ P 'm' P' hP (by decide) (by decide)
  obtain ⟨t1, t2, t3, t4⟩ := summaryTail_contains steadyStateHours
  refine ⟨?_, ⟨timeBucketClause steadyStateHours, ?_, ?_, ?_, ?_, ?_⟩, ?_, ?_, ?_, ?_, ?_,
    by decide!⟩
  · exact getClinicalInfo_label _ _ _
  · rw [getClinicalInfo_eq]; simp
  · intro h1
    simp [timeBucketClause, h1]
  · intro h1 h2
    simp [timeBucketClause, not_lt.mpr h1, h2]
  · intro h1 h2
    have h0 : ¬ steadyStateHours < 24 := not_lt.mpr (by linarith)
    simp [timeBucketClause, h0, not_lt.mpr h1, h2]
  · intro h1
    have h0 : ¬ steadyStateHours < 24 := not_lt.mpr (by linarith)
    have h2 : ¬ steadyStateHours < 72 := not_lt.mpr (by linarith)
    simp [timeBucketClause, h0, h2, not_lt.mpr h1]
  · rw [hw firstDayClause _ rfl]; exact t1
  · rw [hw twoThreeDaysClause _ rfl]; exact t2
  · rw [hw firstWeekClause _ rfl]; exact t3
  · rw [hm moreThanAWeekClause _ rfl]; exact t4
  · intro phrase hp
    simp only [List.mem_cons, List.mem_singleton, List.not_mem_nil, or_false] at hp
    rcases hp with rfl | rfl | rfl | rfl
    · exact contains_labelled_iff _ _ _ _ 'w' _ rfl (by decide) (by decide)
    · exact contains_labelled_iff _ _ _ _ 'w' _ rfl (by decide) (by decide)
    · exact contains_labelled_iff _ _ _ _ 'w' _ rfl (by decide) (by decide)
    · exact contains_labelled_iff _ _ _ _ 'm' _ rfl (by decide) (by decide)

/-- Witness for C8: at 100 hours and 97 % the text for "Digoxin" contains the first-week
clause and, the name holding no clause text, no first-day clause. -/
theorem getClinicalInfo_clauses_witness :
    Contains (getClinicalInfo "Digoxin" 100 97) firstWeekClause ∧
    ¬ Contains (getClinicalInfo "Digoxin" 100 97) firstDayClause := by
  obtain ⟨-, -, h1, -, h3, -, hall, -⟩ := getClinicalInfo_clauses "Digoxin" 100 97
  constructor
  · exact (hall firstWeekClause (by simp)).mpr (Or.inr (h3.mpr ⟨by norm_num, by norm_num⟩))
  · intro hx
    rcases (hall firstDayClause (by simp)).mp hx with hx | hx
    · exact absurd hx (by decide!)
    · exact absurd (h1.mp hx) (by norm_num)

end SteadyCheck
